import Mathlib

/-!
Shallow embedding of `src/backend/scheduler_engine.py` (registrar document-request
simulation).  Conventions used throughout:

* `datetime` values are modelled as rational numbers of minutes since an arbitrary
  epoch; `timedelta` values are rational numbers of minutes.  Subtracting two
  datetimes and dividing `total_seconds()` by 60 therefore becomes plain rational
  subtraction.
* Python floats are modelled as exact rationals (all constants in the source are
  exactly representable).
* Python's `random` module is modelled by a `RandomSource`: two streams indexed by
  a draw counter.  `random.choice` consumes one value of the integer stream and
  picks the element at that index modulo the list length (so for every source the
  chosen element is a member of the list); `random.uniform a b` consumes one value
  of the rational stream, clamped into `[0,1]` and mapped affinely onto `[a,b]`
  (so for every source the draw lies in the interval, which is all the code
  depends on).
* Mutation of Python objects is modelled by explicit state passing; the staff
  roster is a `List StaffMember` and allocators return the index of the selected
  member so that in-place mutation of the selected object becomes `List.set`.
* A raised exception is modelled as an `Except.error` carrying the message, paired
  with the engine state at the moment of the raise (Python keeps mutations made
  before the raise).
-/

/-- Configuration table `PRIORITY_WEIGHTS` from the source. -/
def PRIORITY_WEIGHTS : List (String × ℚ) :=
  [("urgency", 0.40), ("requester_type", 0.25),
   ("waiting_time", 0.20), ("document_type", 0.15)]

/-- Configuration table `REQUESTER_PRIORITY` from the source. -/
def REQUESTER_PRIORITY : List (String × ℚ) :=
  [("Graduating Student", 10), ("Enrolling Student", 8), ("Faculty", 7),
   ("Alumni", 5), ("Regular Student", 3)]

/-- Configuration table `DOCUMENT_COMPLEXITY` from the source. -/
def DOCUMENT_COMPLEXITY : List (String × ℚ) :=
  [("Transcript of Records", 1.5), ("Certificate of Enrollment", 1.0),
   ("Honorable Dismissal", 1.2), ("Certification", 0.8)]

/-- Configuration list `COLLEGES` from the source. -/
def COLLEGES : List String := ["COE", "CAS", "CBA", "CEGE", "CS", "IE"]

/-- Dataclass `DocumentRequest`.  Times are rational minutes since the epoch. -/
structure DocumentRequest where
  request_id : String
  college : String
  document_type : String
  urgency : ℤ
  requester_type : String
  submission_time : ℚ
  priority_score : ℚ := 0
  assignment_time : Option ℚ := none
  completion_time : Option ℚ := none
  assigned_staff : Option String := none
deriving DecidableEq

/-- Method `DocumentRequest.calculate_priority`, the returned score.  Python dict
`get(k, d)` becomes `(lookup k).getD d`; the `PRIORITY_WEIGHTS[...]` subscripts
are on literal keys that are always present, so `getD 0` never takes its
default. -/
def DocumentRequest.calculate_priority (r : DocumentRequest) (current_time : ℚ) : ℚ :=
  let urgency_norm : ℚ := (r.urgency : ℚ) / 10
  let requester_norm : ℚ := ((REQUESTER_PRIORITY.lookup r.requester_type).getD 3) / 10
  let waiting_minutes : ℚ := current_time - r.submission_time
  let waiting_norm : ℚ := min (waiting_minutes / 120) 1
  let doc_complexity : ℚ := (DOCUMENT_COMPLEXITY.lookup r.document_type).getD 1
  let doc_norm : ℚ := 1 / doc_complexity
  (PRIORITY_WEIGHTS.lookup "urgency").getD 0 * urgency_norm
    + (PRIORITY_WEIGHTS.lookup "requester_type").getD 0 * requester_norm
    + (PRIORITY_WEIGHTS.lookup "waiting_time").getD 0 * waiting_norm
    + (PRIORITY_WEIGHTS.lookup "document_type").getD 0 * doc_norm

/-- Method `DocumentRequest.calculate_priority` also writes the score back onto
`self.priority_score`; this is the post-state of the request. -/
def DocumentRequest.calculate_priority_update (r : DocumentRequest) (current_time : ℚ) :
    DocumentRequest :=
  { r with priority_score := r.calculate_priority current_time }

/-- Method `DocumentRequest.get_waiting_time_minutes`.  A Python datetime is always
truthy and `submission_time` is always set, so the guard reduces to
`assignment_time` being non-`None`. -/
def DocumentRequest.get_waiting_time_minutes (r : DocumentRequest) : ℚ :=
  match r.assignment_time with
  | some a => a - r.submission_time
  | none => 0

/-- Method `DocumentRequest.get_turnaround_time_minutes`. -/
def DocumentRequest.get_turnaround_time_minutes (r : DocumentRequest) : ℚ :=
  match r.completion_time with
  | some c => c - r.submission_time
  | none => 0

/-- Dataclass `StaffMember`.  `next_available_time` defaults to construction time
(`datetime.now()` in `__post_init__`), supplied explicitly by `_init_staff` below. -/
structure StaffMember where
  staff_id : String
  name : String
  college_affiliation : String
  next_available_time : ℚ
  total_assigned : ℕ := 0
  is_available : Bool := true
deriving DecidableEq

instance : Inhabited StaffMember := ⟨⟨"", "", "", 0, 0, true⟩⟩

/-- Method `StaffMember.can_accept`. -/
def StaffMember.can_accept (s : StaffMember) (current_time : ℚ) : Bool :=
  s.is_available && decide (s.next_available_time ≤ current_time)

/-- Method `StaffMember.assign_request`: bump the cumulative count and push the
next-available time to the end of processing. -/
def StaffMember.assign_request (s : StaffMember) (assignment_time : ℚ)
    (processing_time : ℚ) : StaffMember :=
  { s with total_assigned := s.total_assigned + 1,
           next_available_time := assignment_time + processing_time }

/-- Model of Python's `random` module: two draw streams indexed by a running
counter that the engine threads through every call. -/
structure RandomSource where
  ints : ℕ → ℕ
  reals : ℕ → ℚ

/-- Model of `random.choice(l)` for the draw value `k`: the element at index
`k % len(l)`; `none` exactly when the list is empty (where Python would raise). -/
def pyChoice {α : Type} (l : List α) (k : ℕ) : Option α :=
  l[k % l.length]?

/-- Total version of `pyChoice` for call sites on literal non-empty lists; the
default `d` is never reached there because `k % len < len`. -/
def pyChoiceD {α : Type} (l : List α) (d : α) (k : ℕ) : α :=
  (pyChoice l k).getD d

/-- Model of `random.uniform a b` for the stream value `q`: `q` clamped to `[0,1]`
and mapped affinely onto `[a,b]`, so the draw always lies between `a` and `b`. -/
def pyUniform (a b q : ℚ) : ℚ :=
  a + (b - a) * min (max q 0) 1

/-- Model of Python's `min(l, key=key)`: the first element attaining the minimal
key (Python replaces the running best only on a strictly smaller key);
`none` exactly when the list is empty. -/
def pyMinBy {α β : Type} [LinearOrder β] (key : α → β) : List α → Option α
  | [] => none
  | x :: xs => some (xs.foldl (fun best y => if key y < key best then y else best) x)

/-- Model of `str.upper()` (all strings in the source are ASCII). -/
def pyUpper (s : String) : String := ⟨s.data.map Char.toUpper⟩

/-- Insert `x` into an already-sorted list, after every element `y` with
`le y x` — so elements comparing equal keep their original relative order. -/
def pyInsertSorted {α : Type} (le : α → α → Bool) (x : α) : List α → List α
  | [] => [x]
  | y :: ys => if le y x then y :: pyInsertSorted le x ys else x :: y :: ys

/-- Model of Python's `sorted(l, key=...)`: a stable sort.  For a total preorder
comparator every stable sort computes the same list, so stable insertion sort
(which the kernel can evaluate) stands in for CPython's timsort. -/
def pySorted {α : Type} (le : α → α → Bool) (l : List α) : List α :=
  l.foldl (fun acc x => pyInsertSorted le x acc) []

/-- Indices of available staff, in roster order: the list
`[s for s in staff_pool if s.is_available]` with each object replaced by its
index so that in-place mutation can be modelled with `List.set`. -/
def availableIdx (pool : List StaffMember) : List ℕ :=
  (pool.enum.filter (fun p => p.2.is_available)).map Prod.fst

/-- Indices of available staff affiliated with the given college, in roster
order. -/
def collegeIdx (pool : List StaffMember) (college : String) : List ℕ :=
  (pool.enum.filter
    (fun p => p.2.college_affiliation == college && p.2.is_available)).map Prod.fst

/-- Method `CollegeBasedAllocator.assign`: uniformly random choice among the
available same-college staff, consuming one integer draw only when the candidate
set is non-empty (Python evaluates `random.choice` only then).  Returns the
selected roster index and the updated draw counter. -/
def CollegeBasedAllocator.assign (pool : List StaffMember) (req : DocumentRequest)
    (_submission_time : ℚ) (rng : RandomSource) (n : ℕ) : Option ℕ × ℕ :=
  let candidates := collegeIdx pool req.college
  if candidates.isEmpty then (none, n)
  else (pyChoice candidates (rng.ints n), n + 1)

/-- Method `WorkloadBasedAllocator.assign`: fewest-assignments among available
same-college staff, falling back to the whole available pool. -/
def WorkloadBasedAllocator.assign (pool : List StaffMember) (req : DocumentRequest)
    (_submission_time : ℚ) : Option ℕ :=
  let college_staff := collegeIdx pool req.college
  match pyMinBy (fun i => (pool.getD i default).total_assigned) college_staff with
  | some i => some i
  | none => pyMinBy (fun i => (pool.getD i default).total_assigned) (availableIdx pool)

/-- Method `PooledAllocator.assign`: among all available staff, the one whose
`max(next_available_time, submission_time)` is smallest. -/
def PooledAllocator.assign (pool : List StaffMember) (_req : DocumentRequest)
    (submission_time : ℚ) : Option ℕ :=
  pyMinBy (fun i => max (pool.getD i default).next_available_time submission_time)
    (availableIdx pool)

/-- Method `QuotaFreeAllocator.assign` (textually the same rule as the pooled
allocator in the source). -/
def QuotaFreeAllocator.assign (pool : List StaffMember) (_req : DocumentRequest)
    (submission_time : ℚ) : Option ℕ :=
  pyMinBy (fun i => max (pool.getD i default).next_available_time submission_time)
    (availableIdx pool)

/-- The four allocator classes, as the closed set of strategies an engine can
hold. -/
inductive AllocatorKind
  | college_based
  | workload_based
  | pooled
  | quota_free
deriving DecidableEq

/-- Dynamic dispatch of `allocator.assign(request, submission_time)`; only the
college-based allocator consumes randomness. -/
def AllocatorKind.assign (k : AllocatorKind) (pool : List StaffMember)
    (req : DocumentRequest) (submission_time : ℚ) (rng : RandomSource) (n : ℕ) :
    Option ℕ × ℕ :=
  match k with
  | .college_based => CollegeBasedAllocator.assign pool req submission_time rng n
  | .workload_based => (WorkloadBasedAllocator.assign pool req submission_time, n)
  | .pooled => (PooledAllocator.assign pool req submission_time, n)
  | .quota_free => (QuotaFreeAllocator.assign pool req submission_time, n)

/-- Class `SimulationEngine`: its mutable attributes. -/
structure SimulationEngine where
  scheduler_type : String
  allocator : AllocatorKind
  staff_pool : List StaffMember
  completed : List DocumentRequest
  start_time : ℚ
  scenario : String
deriving DecidableEq

/-- Method `SimulationEngine._init_staff`; `t0` is the construction instant
(`datetime.now()`), the default `next_available_time` of every member. -/
def SimulationEngine._init_staff (t0 : ℚ) : List StaffMember :=
  [⟨"STAFF001", "Maria Santos", "COE", t0, 0, true⟩,
   ⟨"STAFF002", "Juan Dela Cruz", "CAS", t0, 0, true⟩,
   ⟨"STAFF003", "Ana Reyes", "CBA", t0, 0, true⟩,
   ⟨"STAFF004", "Carlos Lim", "CEGE", t0, 0, true⟩,
   ⟨"STAFF005", "Luisa Gomez", "CS", t0, 0, true⟩,
   ⟨"STAFF006", "Ramon Aquino", "IE", t0, 0, true⟩]

/-- Method `SimulationEngine._create_allocator`: unknown kinds silently fall back
to the college-based allocator (`allocators.get(allocator_type, CollegeBased…)`). -/
def SimulationEngine._create_allocator (allocator_type : String) : AllocatorKind :=
  if allocator_type = "college_based" then .college_based
  else if allocator_type = "workload_based" then .workload_based
  else if allocator_type = "pooled" then .pooled
  else if allocator_type = "quota_free" then .quota_free
  else .college_based

/-- Constructor `SimulationEngine.__init__`; `t0` is `datetime.now()` at
construction. -/
def SimulationEngine.init (scheduler_type allocator_type : String) (t0 : ℚ) :
    SimulationEngine :=
  { scheduler_type := pyUpper scheduler_type
    allocator := SimulationEngine._create_allocator allocator_type
    staff_pool := SimulationEngine._init_staff t0
    completed := []
    start_time := t0
    scenario := "baseline" }

/-- Scenario request volume table from `_generate_requests` (`.get(scenario, 80)`). -/
def total_requests_for (scenario : String) : ℕ :=
  if scenario = "baseline" then 80
  else if scenario = "staff_absence" then 70
  else if scenario = "peak_urgency" then 100
  else if scenario = "workload_imbalance" then 90
  else 80

/-- Urgency candidate pool from `_generate_requests`. -/
def urgency_range_for (scenario : String) : List ℤ :=
  if scenario = "peak_urgency" then [7, 8, 9, 10] else [3, 4, 5, 6, 7]

/-- College candidate pool from `_generate_requests` (`["COE"]*7 + COLLEGES` under
workload imbalance). -/
def colleges_for (scenario : String) : List String :=
  if scenario = "workload_imbalance" then
    ["COE", "COE", "COE", "COE", "COE", "COE", "COE"] ++ COLLEGES
  else COLLEGES

/-- The local `doc_types = list(DOCUMENT_COMPLEXITY.keys())`. -/
def doc_types : List String := DOCUMENT_COMPLEXITY.map Prod.fst

/-- The local `requester_types = list(REQUESTER_PRIORITY.keys())`. -/
def requester_types : List String := REQUESTER_PRIORITY.map Prod.fst

/-- Python `f"REQ{i:04d}"` zero padding. -/
def pad4 (i : ℕ) : String :=
  let s := toString i
  ⟨List.replicate (4 - s.length) '0'⟩ ++ s

/-- Marking `staff_pool[2].is_available = False` (staff-absence scenario).  The
engine's roster always has six members, so the out-of-range case (where Python
would raise `IndexError`) is unreachable from engine states. -/
def mark_unavailable (pool : List StaffMember) (i : ℕ) : List StaffMember :=
  match pool[i]? with
  | some s => pool.set i { s with is_available := false }
  | none => pool

/-- One loop iteration of `_generate_requests`.  The sequential loop consumes
exactly four integer draws per iteration — college, document type, urgency,
requester type, in evaluation order — so iteration `i` started at counter `n`
reads stream positions `n + 4*i` through `n + 4*i + 3`. -/
def mk_request (start_time : ℚ) (scenario : String) (duration_min : ℕ)
    (rng : RandomSource) (n i : ℕ) : DocumentRequest :=
  let total := total_requests_for scenario
  let time_offset : ℚ := (i : ℚ) * ((duration_min : ℚ) / (total : ℚ))
  { request_id := "REQ" ++ pad4 i
    college := pyChoiceD (colleges_for scenario) "" (rng.ints (n + 4 * i))
    document_type := pyChoiceD doc_types "" (rng.ints (n + 4 * i + 1))
    urgency := pyChoiceD (urgency_range_for scenario) 0 (rng.ints (n + 4 * i + 2))
    requester_type := pyChoiceD requester_types "" (rng.ints (n + 4 * i + 3))
    submission_time := start_time + time_offset }

/-- Method `SimulationEngine._generate_requests`: records the scenario label,
applies the staff-absence perturbation, and produces the synthetic batch.
Returns the mutated engine, the batch, and the advanced draw counter. -/
def SimulationEngine._generate_requests (e : SimulationEngine) (scenario : String)
    (duration_min : ℕ) (rng : RandomSource) (n : ℕ) :
    SimulationEngine × List DocumentRequest × ℕ :=
  let e1 := { e with
    scenario := scenario
    staff_pool := if scenario = "staff_absence" then mark_unavailable e.staff_pool 2
                  else e.staff_pool }
  let total := total_requests_for scenario
  let requests := (List.range total).map (mk_request e.start_time scenario duration_min rng n)
  (e1, requests, n + 4 * total)

/-- Python `round(x, 2)`.  The claims never inspect a rounded field; exact
rational half-up rounding stands in for float banker's rounding here. -/
def pyRound2 (q : ℚ) : ℚ := (⌊q * 100 + 1 / 2⌋ : ℚ) / 100

/-- The metrics dictionary returned by `run`. -/
structure Report where
  avg_waiting_time : ℚ
  avg_turnaround : ℚ
  throughput : ℚ
  total_processed : ℕ
  staff_load : List (String × ℕ)
  scenario : String
deriving DecidableEq

/-- Method `SimulationEngine._calculate_metrics`.  The degenerate branch (no
completions) computes no division.  In the main branch Python divides
`len(self.completed)` by `duration_min / 60.0`, which raises `ZeroDivisionError`
when the duration is 0; that error path is modelled explicitly.  The two average
divisors are the length of the (non-empty) completed list and never vanish. -/
def SimulationEngine._calculate_metrics (e : SimulationEngine) (duration_min : ℕ) :
    Except String Report :=
  if e.completed.isEmpty then
    .ok { avg_waiting_time := 0
          avg_turnaround := 0
          throughput := 0
          total_processed := 0
          staff_load := e.staff_pool.map (fun s => (s.staff_id, s.total_assigned))
          scenario := e.scenario }
  else
    let waiting_times := e.completed.map DocumentRequest.get_waiting_time_minutes
    let turnaround_times := e.completed.map DocumentRequest.get_turnaround_time_minutes
    let duration_hours : ℚ := (duration_min : ℚ) / 60
    if duration_hours = 0 then .error "ZeroDivisionError"
    else
      let throughput : ℚ := (e.completed.length : ℚ) / duration_hours
      .ok { avg_waiting_time := pyRound2 (waiting_times.sum / (waiting_times.length : ℚ))
            avg_turnaround := pyRound2 (turnaround_times.sum / (turnaround_times.length : ℚ))
            throughput := pyRound2 throughput
            total_processed := e.completed.length
            staff_load := e.staff_pool.map (fun s => (s.staff_id, s.total_assigned))
            scenario := e.scenario }

/-- Body of the per-request processing loop in `run`.  Result `.ok (pool, none, n)`
models `continue` (skipped or dropped request); `.ok (pool, some r, n)` models a
completed assignment; `.error` models the `KeyError` Python would raise on a
document type outside `DOCUMENT_COMPLEXITY` (unreachable for generated batches),
at which point the roster has not yet been touched. -/
def process_request (alloc : AllocatorKind) (end_time : ℚ) (rng : RandomSource)
    (pool : List StaffMember) (req : DocumentRequest) (n : ℕ) :
    Except String (List StaffMember × Option DocumentRequest × ℕ) :=
  if end_time < req.submission_time then .ok (pool, none, n)
  else
    match alloc.assign pool req req.submission_time rng n with
    | (none, n1) => .ok (pool, none, n1)
    | (some i, n1) =>
      let staff := pool.getD i default
      let assignment_time := max req.submission_time staff.next_available_time
      match DOCUMENT_COMPLEXITY.lookup req.document_type with
      | none => .error "KeyError"
      | some c =>
        let base_mins := c * 3
        let processing_time := pyUniform (base_mins * 0.8) (base_mins * 1.2) (rng.reals n1)
        let req1 := { req with
          assignment_time := some assignment_time
          assigned_staff := some staff.staff_id
          completion_time := some (assignment_time + processing_time) }
        .ok (pool.set i (staff.assign_request assignment_time processing_time),
             some req1, n1 + 1)

/-- The `for req in sorted_requests` loop of `run`, threading the roster, the
engine-cumulative completed list (`self.completed.append`), and the draw counter.
On an exception the state reached so far is kept alongside the message. -/
def process_requests (alloc : AllocatorKind) (end_time : ℚ) (rng : RandomSource) :
    List StaffMember → List DocumentRequest → List DocumentRequest → ℕ →
    (List StaffMember × List DocumentRequest × ℕ) × Option String
  | pool, completed, [], n => ((pool, completed, n), none)
  | pool, completed, req :: rest, n =>
    match process_request alloc end_time rng pool req n with
    | .error msg => ((pool, completed, n), some msg)
    | .ok (pool1, none, n1) => process_requests alloc end_time rng pool1 completed rest n1
    | .ok (pool1, some r, n1) =>
      process_requests alloc end_time rng pool1 (completed ++ [r]) rest n1

/-- Method `SimulationEngine.run`.  Returns the engine state after the call
together with either the metrics report or the raised error (state mutations made
before a raise persist, as in Python). -/
def SimulationEngine.run (e : SimulationEngine) (scenario : String)
    (duration_min : ℕ) (rng : RandomSource) :
    SimulationEngine × Except String Report :=
  let gen := e._generate_requests scenario duration_min rng 0
  let e1 := gen.1
  let requests := gen.2.1
  let n1 := gen.2.2
  let end_time := e1.start_time + (duration_min : ℚ)
  let simulation_start := e1.start_time
  let requests1 :=
    if e1.scheduler_type = "WEIGHTED" then
      requests.map (fun r => r.calculate_priority_update simulation_start)
    else requests
  let sorted? : Except String (List DocumentRequest) :=
    if e1.scheduler_type = "FCFS" then
      .ok (pySorted (fun a b => decide (a.submission_time ≤ b.submission_time)) requests1)
    else if e1.scheduler_type = "WEIGHTED" then
      .ok (pySorted (fun a b => decide (b.priority_score ≤ a.priority_score)) requests1)
    else .error ("Unknown scheduler type: " ++ e1.scheduler_type)
  match sorted? with
  | .error msg => (e1, .error msg)
  | .ok sorted_requests =>
    match process_requests e1.allocator end_time rng e1.staff_pool e1.completed
        sorted_requests n1 with
    | ((pool2, completed2, _), some msg) =>
      ({ e1 with staff_pool := pool2, completed := completed2 }, .error msg)
    | ((pool2, completed2, _), none) =>
      let e2 := { e1 with staff_pool := pool2, completed := completed2 }
      (e2, e2._calculate_metrics duration_min)

/-- Observable identity of a roster slot: everything the processing loop never
changes (it only advances `next_available_time` and `total_assigned`). -/
def poolShape (s : StaffMember) : String × String × Bool :=
  (s.staff_id, s.college_affiliation, s.is_available)

/-- Total cumulative assignment count of a roster. -/
def sumTotals (pool : List StaffMember) : ℕ :=
  (pool.map StaffMember.total_assigned).sum

/-- A request's college is covered: some available staff member has that
affiliation. -/
def coveredBy (pool : List StaffMember) (r : DocumentRequest) : Prop :=
  ∃ (i : ℕ) (s : StaffMember),
    pool[i]? = some s ∧ s.is_available = true ∧ s.college_affiliation = r.college

deriving instance DecidableEq for Except

/-- The roster immediately after the generation step of a run: the staff-absence
scenario marks the third member unavailable, every other scenario leaves the
roster untouched. -/
def genPool (e : SimulationEngine) (scen : String) : List StaffMember :=
  if scen = "staff_absence" then mark_unavailable e.staff_pool 2 else e.staff_pool

/-- A concrete random source for witnesses: both streams constantly zero. -/
def rng0 : RandomSource := ⟨fun _ => 0, fun _ => 0⟩

/-- A concrete fresh engine: arrival-order scheduler, college-based allocator,
constructed at time 0. -/
def fresh_fcfs_engine : SimulationEngine :=
  SimulationEngine.init "FCFS" "college_based" 0

/-- A concrete engine whose scheduler kind is not recognized. -/
def bogus_engine : SimulationEngine :=
  SimulationEngine.init "bogus" "pooled" 0

/-- A concrete request maximizing every priority factor once the wait cap is
reached. -/
def high_priority_request : DocumentRequest :=
  { request_id := "R1", college := "COE", document_type := "Certification",
    urgency := 10, requester_type := "Graduating Student", submission_time := 0 }

/-- A concrete request used to seed engine state in witnesses. -/
def seeded_request : DocumentRequest :=
  { request_id := "SEED", college := "COE", document_type := "Certification",
    urgency := 5, requester_type := "Faculty", submission_time := 0 }

/-- A fresh engine whose cumulative completed list already holds one request. -/
def seeded_engine : SimulationEngine :=
  { fresh_fcfs_engine with completed := [seeded_request] }

/-- A one-member roster that is available but busy until time 5. -/
def tiny_pool : List StaffMember := [⟨"S1", "Solo", "COE", 5, 0, true⟩]

/-- A concrete request submitted at time 0 (before `tiny_pool`'s member is free). -/
def tiny_request : DocumentRequest :=
  { request_id := "T1", college := "COE", document_type := "Certification",
    urgency := 5, requester_type := "Faculty", submission_time := 0 }

/-- A fresh engine whose third roster member has already been marked absent. -/
def absent_engine : SimulationEngine :=
  { fresh_fcfs_engine with staff_pool := mark_unavailable fresh_fcfs_engine.staff_pool 2 }

/-! Helper lemmas about the Python-primitive models. -/

theorem foldl_min_mem {α β : Type} [LinearOrder β] (key : α → β) :
    ∀ (ys : List α) (b : α),
      ys.foldl (fun best z => if key z < key best then z else best) b ∈ b :: ys := by
  intro ys
  induction ys with
  | nil => intro b; simp
  | cons z zs ih =>
    intro b
    simp only [List.foldl_cons]
    rcases List.mem_cons.mp (ih (if key z < key b then z else b)) with h | h
    · rw [h]
      by_cases hc : key z < key b
      · simp [hc]
      · simp [hc]
    · simp [List.mem_cons, h]

theorem pyMinBy_mem {α β : Type} [LinearOrder β] (key : α → β) (l : List α) (x : α)
    (h : pyMinBy key l = some x) : x ∈ l := by
  cases l with
  | nil => simp [pyMinBy] at h
  | cons y ys =>
    simp only [pyMinBy, Option.some.injEq] at h
    subst h
    exact foldl_min_mem key ys y

theorem pyMinBy_eq_none {α β : Type} [LinearOrder β] (key : α → β) (l : List α) :
    pyMinBy key l = none ↔ l = [] := by
  cases l <;> simp [pyMinBy]

theorem pyChoice_mem {α : Type} (l : List α) (k : ℕ) (x : α)
    (h : pyChoice l k = some x) : x ∈ l := by
  unfold pyChoice at h
  obtain ⟨hlt, rfl⟩ := List.getElem?_eq_some.mp h
  exact List.getElem_mem hlt

theorem pyChoice_isSome {α : Type} (l : List α) (k : ℕ) (hne : l ≠ []) :
    ∃ x, pyChoice l k = some x ∧ x ∈ l := by
  have hlen : 0 < l.length := List.length_pos.mpr hne
  have hlt : k % l.length < l.length := Nat.mod_lt _ hlen
  refine ⟨l[k % l.length], ?_, List.getElem_mem _⟩
  exact List.getElem?_eq_getElem hlt

theorem pyChoiceD_mem {α : Type} (l : List α) (d : α) (k : ℕ) (hne : l ≠ []) :
    pyChoiceD l d k ∈ l := by
  obtain ⟨x, hx, hmem⟩ := pyChoice_isSome l k hne
  simp [pyChoiceD, hx, hmem]

theorem pyUniform_bounds (a b q : ℚ) (hab : a ≤ b) :
    a ≤ pyUniform a b q ∧ pyUniform a b q ≤ b := by
  unfold pyUniform
  have h0 : (0 : ℚ) ≤ min (max q 0) 1 := le_min (le_max_right q 0) zero_le_one
  have h1 : min (max q 0) 1 ≤ 1 := min_le_right _ _
  have hba : 0 ≤ b - a := by linarith
  constructor
  · nlinarith
  · nlinarith

theorem pyInsertSorted_length {α : Type} (le : α → α → Bool) (x : α) :
    ∀ l : List α, (pyInsertSorted le x l).length = l.length + 1 := by
  intro l
  induction l with
  | nil => simp [pyInsertSorted]
  | cons y ys ih =>
    by_cases h : le y x = true
    · simp [pyInsertSorted, h, ih]
    · simp [pyInsertSorted, h]

theorem pyInsertSorted_mem {α : Type} (le : α → α → Bool) (x z : α) :
    ∀ l : List α, (z ∈ pyInsertSorted le x l ↔ z = x ∨ z ∈ l) := by
  intro l
  induction l with
  | nil => simp [pyInsertSorted]
  | cons y ys ih =>
    simp only [pyInsertSorted]
    by_cases h : le y x = true
    · rw [if_pos h]
      simp only [List.mem_cons, ih]
      tauto
    · rw [if_neg h]
      simp [List.mem_cons]

theorem pySorted_foldl_length {α : Type} (le : α → α → Bool) :
    ∀ (l acc : List α),
      (l.foldl (fun a x => pyInsertSorted le x a) acc).length = acc.length + l.length := by
  intro l
  induction l with
  | nil => intro acc; simp
  | cons y ys ih =>
    intro acc
    simp only [List.foldl_cons]
    rw [ih, pyInsertSorted_length]
    simp only [List.length_cons]
    omega

theorem pySorted_foldl_mem {α : Type} (le : α → α → Bool) :
    ∀ (l acc : List α) (z : α),
      (z ∈ l.foldl (fun a x => pyInsertSorted le x a) acc ↔ z ∈ acc ∨ z ∈ l) := by
  intro l
  induction l with
  | nil => intro acc z; simp
  | cons y ys ih =>
    intro acc z
    simp only [List.foldl_cons]
    rw [ih, pyInsertSorted_mem]
    simp [List.mem_cons]
    tauto

theorem pySorted_length {α : Type} (le : α → α → Bool) (l : List α) :
    (pySorted le l).length = l.length := by
  unfold pySorted
  rw [pySorted_foldl_length]
  simp

theorem pySorted_mem {α : Type} (le : α → α → Bool) (l : List α) (z : α) :
    z ∈ pySorted le l ↔ z ∈ l := by
  unfold pySorted
  rw [pySorted_foldl_mem]
  simp

/-! Roster-index lemmas. -/

theorem mem_availableIdx (pool : List StaffMember) (i : ℕ) :
    i ∈ availableIdx pool ↔ ∃ s, pool[i]? = some s ∧ s.is_available = true := by
  unfold availableIdx
  constructor
  · intro h
    rcases List.mem_map.mp h with ⟨⟨j, s⟩, hmem, hj⟩
    rcases List.mem_filter.mp hmem with ⟨henum, hp⟩
    cases hj
    exact ⟨s, List.mem_enum_iff_getElem?.mp henum, hp⟩
  · rintro ⟨s, hs, hav⟩
    exact List.mem_map.mpr ⟨(i, s),
      List.mem_filter.mpr ⟨List.mem_enum_iff_getElem?.mpr hs, hav⟩, rfl⟩

theorem mem_collegeIdx (pool : List StaffMember) (c : String) (i : ℕ) :
    i ∈ collegeIdx pool c ↔
      ∃ s, pool[i]? = some s ∧ s.college_affiliation = c ∧ s.is_available = true := by
  unfold collegeIdx
  constructor
  · intro h
    rcases List.mem_map.mp h with ⟨⟨j, s⟩, hmem, hj⟩
    rcases List.mem_filter.mp hmem with ⟨henum, hp⟩
    cases hj
    simp only [Bool.and_eq_true, beq_iff_eq] at hp
    exact ⟨s, List.mem_enum_iff_getElem?.mp henum, hp.1, hp.2⟩
  · rintro ⟨s, hs, hcol, hav⟩
    refine List.mem_map.mpr ⟨(i, s),
      List.mem_filter.mpr ⟨List.mem_enum_iff_getElem?.mpr hs, ?_⟩, rfl⟩
    simp [hcol, hav]

/-- Every index an allocator returns denotes an available roster member. -/
theorem assign_some_available (alloc : AllocatorKind) (pool : List StaffMember)
    (req : DocumentRequest) (t : ℚ) (rng : RandomSource) (n i : ℕ) (n1 : ℕ)
    (h : alloc.assign pool req t rng n = (some i, n1)) :
    ∃ s, pool[i]? = some s ∧ s.is_available = true := by
  cases alloc with
  | college_based =>
    simp only [AllocatorKind.assign, CollegeBasedAllocator.assign] at h
    cases hc : (collegeIdx pool req.college).isEmpty with
    | true => simp [hc] at h
    | false =>
      simp only [hc, Bool.false_eq_true, if_false, Prod.mk.injEq] at h
      have hmem := pyChoice_mem _ _ _ h.1
      rcases (mem_collegeIdx pool req.college i).mp hmem with ⟨s, hs, _, hav⟩
      exact ⟨s, hs, hav⟩
  | workload_based =>
    simp only [AllocatorKind.assign, WorkloadBasedAllocator.assign] at h
    cases hmin : pyMinBy (fun j => (pool.getD j default).total_assigned)
        (collegeIdx pool req.college) with
    | none =>
      simp only [hmin, Prod.mk.injEq] at h
      have hmem := pyMinBy_mem _ _ _ h.1
      rcases (mem_availableIdx pool i).mp hmem with ⟨s, hs, hav⟩
      exact ⟨s, hs, hav⟩
    | some j =>
      simp only [hmin, Prod.mk.injEq, Option.some.injEq] at h
      have hmem := pyMinBy_mem _ _ _ hmin
      rw [h.1] at hmem
      rcases (mem_collegeIdx pool req.college i).mp hmem with ⟨s, hs, _, hav⟩
      exact ⟨s, hs, hav⟩
  | pooled =>
    simp only [AllocatorKind.assign, PooledAllocator.assign, Prod.mk.injEq] at h
    have hmem := pyMinBy_mem _ _ _ h.1
    rcases (mem_availableIdx pool i).mp hmem with ⟨s, hs, hav⟩
    exact ⟨s, hs, hav⟩
  | quota_free =>
    simp only [AllocatorKind.assign, QuotaFreeAllocator.assign, Prod.mk.injEq] at h
    have hmem := pyMinBy_mem _ _ _ h.1
    rcases (mem_availableIdx pool i).mp hmem with ⟨s, hs, hav⟩
    exact ⟨s, hs, hav⟩

/-! Configuration-table value lemmas. -/

theorem requester_weight_bounds (s : String) :
    3 ≤ (REQUESTER_PRIORITY.lookup s).getD 3 ∧ (REQUESTER_PRIORITY.lookup s).getD 3 ≤ 10 := by
  simp only [REQUESTER_PRIORITY, List.lookup]
  repeat' split
  all_goals norm_num

theorem complexity_getD_bounds (s : String) :
    (4 : ℚ) / 5 ≤ (DOCUMENT_COMPLEXITY.lookup s).getD 1 ∧
      (DOCUMENT_COMPLEXITY.lookup s).getD 1 ≤ 3 / 2 := by
  simp only [DOCUMENT_COMPLEXITY, List.lookup]
  repeat' split
  all_goals norm_num

theorem complexity_lookup_bounds (s : String) (c : ℚ)
    (h : DOCUMENT_COMPLEXITY.lookup s = some c) :
    (4 : ℚ) / 5 ≤ c ∧ c ≤ 3 / 2 := by
  have := complexity_getD_bounds s
  rw [h] at this
  simpa using this

unseal Rat.ofScientific Rat.mul Rat.inv Rat.add Rat.sub in
theorem weights_values :
    (PRIORITY_WEIGHTS.lookup "urgency").getD 0 = 2/5 ∧
    (PRIORITY_WEIGHTS.lookup "requester_type").getD 0 = 1/4 ∧
    (PRIORITY_WEIGHTS.lookup "waiting_time").getD 0 = 1/5 ∧
    (PRIORITY_WEIGHTS.lookup "document_type").getD 0 = 3/20 := by
  refine ⟨?_, ?_, ?_, ?_⟩ <;> decide

/-! Pool shape and total-count lemmas. -/

theorem poolShape_assign_request (s : StaffMember) (a p : ℚ) :
    poolShape (s.assign_request a p) = poolShape s := rfl

theorem shape_set_assign (pool : List StaffMember) (i : ℕ) (s : StaffMember)
    (hs : pool[i]? = some s) (a p : ℚ) :
    ∀ j : ℕ, ((pool.set i (s.assign_request a p))[j]?).map poolShape =
      (pool[j]?).map poolShape := by
  intro j
  by_cases hij : i = j
  · subst hij
    have hlt : i < pool.length := (List.getElem?_eq_some.mp hs).1
    rw [List.getElem?_set_self hlt, hs]
    simp [poolShape_assign_request]
  · rw [List.getElem?_set_ne hij]

theorem shape_trans_covered (pool1 pool2 : List StaffMember) (r : DocumentRequest)
    (hshape : ∀ j : ℕ, (pool2[j]?).map poolShape = (pool1[j]?).map poolShape)
    (h : coveredBy pool1 r) : coveredBy pool2 r := by
  rcases h with ⟨i, s, hs, hav, hcol⟩
  have := hshape i
  rw [hs] at this
  rcases hmem : pool2[i]? with _ | s2
  · rw [hmem] at this
    simp at this
  · rw [hmem] at this
    simp only [Option.map_some'] at this
    have hshape2 : poolShape s2 = poolShape s := Option.some_inj.mp this
    refine ⟨i, s2, hmem, ?_, ?_⟩
    · have : s2.is_available = s.is_available := congrArg (fun t => t.2.2) hshape2
      rw [this, hav]
    · have : s2.college_affiliation = s.college_affiliation :=
        congrArg (fun t => t.2.1) hshape2
      rw [this, hcol]

theorem length_eq_of_shape (pool1 pool2 : List StaffMember)
    (hshape : ∀ j : ℕ, (pool2[j]?).map poolShape = (pool1[j]?).map poolShape) :
    pool2.length = pool1.length := by
  by_contra hne
  rcases Nat.lt_or_ge pool2.length pool1.length with hlt | hge
  · have h1 : pool1[pool2.length]? ≠ none := by
      intro hnone
      have := List.getElem?_eq_none_iff.mp hnone
      omega
    have h2 : pool2[pool2.length]? = none := List.getElem?_eq_none (le_refl _)
    have := hshape pool2.length
    rw [h2] at this
    rcases hmem : pool1[pool2.length]? with _ | s
    · exact h1 hmem
    · rw [hmem] at this
      simp at this
  · have hlt : pool1.length < pool2.length := by omega
    have h1 : pool2[pool1.length]? ≠ none := by
      intro hnone
      have := List.getElem?_eq_none_iff.mp hnone
      omega
    have h2 : pool1[pool1.length]? = none := List.getElem?_eq_none (le_refl _)
    have := hshape pool1.length
    rw [h2] at this
    rcases hmem : pool2[pool1.length]? with _ | s
    · exact h1 hmem
    · rw [hmem] at this
      simp at this

theorem sumTotals_set_assign (pool : List StaffMember) :
    ∀ (i : ℕ) (s : StaffMember), pool[i]? = some s → ∀ (a p : ℚ),
      sumTotals (pool.set i (s.assign_request a p)) = sumTotals pool + 1 := by
  induction pool with
  | nil => intro i s hs; simp at hs
  | cons x xs ih =>
    intro i s hs a p
    cases i with
    | zero =>
      simp only [List.getElem?_cons_zero, Option.some.injEq] at hs
      subst hs
      simp only [List.set_cons_zero, sumTotals, List.map_cons, List.sum_cons,
        StaffMember.assign_request]
      omega
    | succ k =>
      simp only [List.getElem?_cons_succ] at hs
      have := ih k s hs a p
      simp only [List.set_cons_succ, sumTotals, List.map_cons, List.sum_cons]
      simp only [sumTotals] at this
      omega

/-! Characterization of one processing step. -/

theorem process_request_skip (alloc : AllocatorKind) (end_time : ℚ) (rng : RandomSource)
    (pool : List StaffMember) (req : DocumentRequest) (n : ℕ)
    (h : end_time < req.submission_time) :
    process_request alloc end_time rng pool req n = .ok (pool, none, n) := by
  unfold process_request
  rw [if_pos h]

theorem process_request_unassigned (alloc : AllocatorKind) (end_time : ℚ)
    (rng : RandomSource) (pool : List StaffMember) (req : DocumentRequest) (n n1 : ℕ)
    (hle : ¬ end_time < req.submission_time)
    (hassign : alloc.assign pool req req.submission_time rng n = (none, n1)) :
    process_request alloc end_time rng pool req n = .ok (pool, none, n1) := by
  unfold process_request
  rw [if_neg hle, hassign]

theorem process_request_assigned (alloc : AllocatorKind) (end_time : ℚ)
    (rng : RandomSource) (pool : List StaffMember) (req : DocumentRequest)
    (n n1 i : ℕ) (s : StaffMember) (c : ℚ)
    (hle : ¬ end_time < req.submission_time)
    (hassign : alloc.assign pool req req.submission_time rng n = (some i, n1))
    (hs : pool[i]? = some s)
    (hdc : DOCUMENT_COMPLEXITY.lookup req.document_type = some c) :
    process_request alloc end_time rng pool req n =
      .ok (pool.set i (s.assign_request (max req.submission_time s.next_available_time)
             (pyUniform (c * 3 * 0.8) (c * 3 * 1.2) (rng.reals n1))),
           some { req with
             assignment_time := some (max req.submission_time s.next_available_time)
             assigned_staff := some s.staff_id
             completion_time := some (max req.submission_time s.next_available_time +
               pyUniform (c * 3 * 0.8) (c * 3 * 1.2) (rng.reals n1)) },
           n1 + 1) := by
  have hgetD : pool.getD i default = s := by
    rw [List.getD_eq_getElem?_getD, hs]
    rfl
  unfold process_request
  rw [if_neg hle, hassign]
  simp only [hgetD, hdc]

/-- Master invariant of the processing loop: given that every request's document
type is in the complexity table (true of every generated batch), the loop never
raises, appends some sublist `new` to the cumulative completed list, preserves
every roster slot's identity/affiliation/availability, adds exactly one
cumulative assignment per completion, never decreases any member's count, stamps
every completed request with coherent times, and — for the college-based
allocator — completes every in-horizon request whose college is covered. -/
theorem process_requests_spec (alloc : AllocatorKind) (end_time : ℚ) (rng : RandomSource) :
    ∀ (reqs : List DocumentRequest) (pool : List StaffMember)
      (completed : List DocumentRequest) (n : ℕ),
    (∀ r ∈ reqs, (DOCUMENT_COMPLEXITY.lookup r.document_type).isSome) →
    ∃ pool2 new n2,
      process_requests alloc end_time rng pool completed reqs n =
        ((pool2, completed ++ new, n2), none) ∧
      (∀ j : ℕ, (pool2[j]?).map poolShape = (pool[j]?).map poolShape) ∧
      sumTotals pool2 = sumTotals pool + new.length ∧
      (∀ (j : ℕ) (st : StaffMember), pool[j]? = some st →
        ∃ st2, pool2[j]? = some st2 ∧ st.total_assigned ≤ st2.total_assigned) ∧
      (∀ r ∈ new, ∃ a c sid, r.assignment_time = some a ∧ r.completion_time = some c ∧
        r.assigned_staff = some sid ∧ r.submission_time ≤ a ∧ a ≤ c) ∧
      (alloc = .college_based →
        (∀ r ∈ reqs, r.submission_time ≤ end_time ∧ coveredBy pool r) →
        new.length = reqs.length) := by
  intro reqs
  induction reqs with
  | nil =>
    intro pool completed n _
    exact ⟨pool, [], n, by simp [process_requests], fun _ => rfl, by simp [sumTotals],
      fun j st hst => ⟨st, hst, le_refl _⟩, by simp, fun _ _ => rfl⟩
  | cons req rest ih =>
    intro pool completed n hdoc
    have hdocr := hdoc req (List.mem_cons_self _ _)
    have hdocs : ∀ r ∈ rest, (DOCUMENT_COMPLEXITY.lookup r.document_type).isSome :=
      fun r hr => hdoc r (List.mem_cons_of_mem _ hr)
    by_cases hskip : end_time < req.submission_time
    · obtain ⟨pool2, new, n2, heq, hshape, hsum, hmono, hgood, _⟩ :=
        ih pool completed n hdocs
      refine ⟨pool2, new, n2, ?_, hshape, hsum, hmono, hgood, ?_⟩
      · have hstep := process_request_skip alloc end_time rng pool req n hskip
        simp only [process_requests, hstep]
        exact heq
      · intro _ hall
        have := (hall req (List.mem_cons_self _ _)).1
        exact absurd this (not_le.mpr hskip)
    · cases hassign : alloc.assign pool req req.submission_time rng n with
    | mk oi n1 =>
      cases oi with
      | none =>
        obtain ⟨pool2, new, n2, heq, hshape, hsum, hmono, hgood, _⟩ :=
          ih pool completed n1 hdocs
        refine ⟨pool2, new, n2, ?_, hshape, hsum, hmono, hgood, ?_⟩
        · have hstep := process_request_unassigned alloc end_time rng pool req n n1
            hskip hassign
          simp only [process_requests, hstep]
          exact heq
        · intro halloc hall
          exfalso
          subst halloc
          obtain ⟨hsub, i, s, hs, hav, hcol⟩ := hall req (List.mem_cons_self _ _)
          have hiidx : i ∈ collegeIdx pool req.college :=
            (mem_collegeIdx pool req.college i).mpr ⟨s, hs, hcol, hav⟩
          have hne : collegeIdx pool req.college ≠ [] := by
            intro h0
            rw [h0] at hiidx
            cases hiidx
          simp only [AllocatorKind.assign, CollegeBasedAllocator.assign] at hassign
          cases hemp : (collegeIdx pool req.college).isEmpty with
          | true => exact hne (List.isEmpty_iff.mp hemp)
          | false =>
            rw [hemp] at hassign
            simp only [Bool.false_eq_true, if_false] at hassign
            obtain ⟨x, hx, _⟩ := pyChoice_isSome (collegeIdx pool req.college)
              (rng.ints n) hne
            rw [hx] at hassign
            simp at hassign
      | some i =>
        obtain ⟨s, hs, hav⟩ :=
          assign_some_available alloc pool req req.submission_time rng n i n1 hassign
        rcases hdc : DOCUMENT_COMPLEXITY.lookup req.document_type with _ | c
        · rw [hdc] at hdocr
          simp at hdocr
        · have hcpos := (complexity_lookup_bounds req.document_type c hdc).1
          have hstep := process_request_assigned alloc end_time rng pool req n n1 i s c
            hskip hassign hs hdc
          set atime := max req.submission_time s.next_available_time with hatime
          set ptime := pyUniform (c * 3 * 0.8) (c * 3 * 1.2) (rng.reals n1) with hptime
          set req1 : DocumentRequest := { req with
            assignment_time := some atime
            assigned_staff := some s.staff_id
            completion_time := some (atime + ptime) } with hreq1
          set pool1 := pool.set i (s.assign_request atime ptime) with hpool1
          have hshape1 : ∀ j : ℕ, (pool1[j]?).map poolShape = (pool[j]?).map poolShape :=
            shape_set_assign pool i s hs atime ptime
          obtain ⟨pool2, new, n2, heq, hshape, hsum, hmono, hgood, hcov⟩ :=
            ih pool1 (completed ++ [req1]) (n1 + 1) hdocs
          refine ⟨pool2, req1 :: new, n2, ?_, ?_, ?_, ?_, ?_, ?_⟩
          · simp only [process_requests, hstep]
            rw [heq]
            simp [List.append_assoc]
          · intro j
            rw [hshape j, hshape1 j]
          · rw [hsum, sumTotals_set_assign pool i s hs atime ptime]
            simp only [List.length_cons]
            omega
          · intro j st hst
            by_cases hij : i = j
            · subst hij
              have hlt : i < pool.length := (List.getElem?_eq_some.mp hs).1
              have hst' : pool1[i]? = some (s.assign_request atime ptime) := by
                rw [hpool1]
                exact List.getElem?_set_self hlt
              obtain ⟨st2, hst2, hle2⟩ := hmono i (s.assign_request atime ptime) hst'
              have hsts : st = s := by
                rw [hs] at hst
                exact (Option.some_inj.mp hst).symm
              refine ⟨st2, hst2, ?_⟩
              have hinc : (s.assign_request atime ptime).total_assigned =
                  s.total_assigned + 1 := rfl
              rw [hsts]
              omega
            · have hst' : pool1[j]? = some st := by
                rw [hpool1, List.getElem?_set_ne hij]
                exact hst
              exact hmono j st hst'
          · intro r hr
            rcases List.mem_cons.mp hr with hr1 | hrn
            · subst hr1
              have hab : c * 3 * 0.8 ≤ c * 3 * 1.2 := by nlinarith
              have hpt := pyUniform_bounds (c * 3 * 0.8) (c * 3 * 1.2) (rng.reals n1) hab
              have hpt0 : 0 ≤ ptime := by
                rw [hptime]
                nlinarith [hpt.1]
              refine ⟨atime, atime + ptime, s.staff_id, rfl, rfl, rfl, le_max_left _ _, ?_⟩
              linarith
            · exact hgood r hrn
          · intro halloc hall
            have hrest : ∀ r ∈ rest, r.submission_time ≤ end_time ∧ coveredBy pool1 r := by
              intro r hr
              obtain ⟨h1, h2⟩ := hall r (List.mem_cons_of_mem _ hr)
              exact ⟨h1, shape_trans_covered pool pool1 r hshape1 h2⟩
            have := hcov halloc hrest
            simp only [List.length_cons]
            omega

/-! Claim theorems. -/

unseal Rat.ofScientific Rat.mul Rat.inv Rat.add Rat.sub in
/-- Claim C1 counterexample: this request (urgency 10, graduating student,
certification) submitted at time 0 and scored at time 120 satisfies the claim's
hypothesis (submission ≤ now) yet scores 83/80, which is greater than 1 — the
priority score is not confined to the closed interval [0,1]. -/
theorem C1_score_exceeds_one :
    high_priority_request.submission_time ≤ 120 ∧
    high_priority_request.calculate_priority 120 = 83 / 80 ∧
    ¬ high_priority_request.calculate_priority 120 ≤ 1 := by
  refine ⟨by decide, by decide, by decide⟩

/-- Claim C1 (amended): for every request with submission time ≤ now and urgency
in 0..10, `calculate_priority` returns exactly the weighted sum
0.40·(urgency/10) + 0.25·(requester weight/10) + 0.20·min(waited/120, 1) +
0.15·(1/complexity), and that value lies in [0, 83/80] — the claim's upper bound
1 must be relaxed to 83/80 because the document-simplicity factor of a
certification is 1/0.8 > 1. -/
theorem C1_priority_weighted_sum_bounds (r : DocumentRequest) (now : ℚ)
    (hsub : r.submission_time ≤ now) (h0 : 0 ≤ r.urgency) (h10 : r.urgency ≤ 10) :
    r.calculate_priority now =
      0.40 * ((r.urgency : ℚ) / 10) +
      0.25 * (((REQUESTER_PRIORITY.lookup r.requester_type).getD 3) / 10) +
      0.20 * min ((now - r.submission_time) / 120) 1 +
      0.15 * (1 / (DOCUMENT_COMPLEXITY.lookup r.document_type).getD 1) ∧
    0 ≤ r.calculate_priority now ∧ r.calculate_priority now ≤ 83 / 80 := by
  have hw := weights_values
  have hreq := requester_weight_bounds r.requester_type
  have hcx := complexity_getD_bounds r.document_type
  have hu0 : (0 : ℚ) ≤ (r.urgency : ℚ) := by exact_mod_cast h0
  have hu10 : (r.urgency : ℚ) ≤ 10 := by exact_mod_cast h10
  have hmin0 : 0 ≤ min ((now - r.submission_time) / 120) 1 :=
    le_min (div_nonneg (sub_nonneg.mpr hsub) (by norm_num)) zero_le_one
  have hmin1 : min ((now - r.submission_time) / 120) 1 ≤ 1 := min_le_right _ _
  have hcx0 : (0 : ℚ) < (DOCUMENT_COMPLEXITY.lookup r.document_type).getD 1 := by
    linarith [hcx.1]
  have hdn0 : 0 ≤ 1 / (DOCUMENT_COMPLEXITY.lookup r.document_type).getD 1 := by positivity
  have hdn1 : 1 / (DOCUMENT_COMPLEXITY.lookup r.document_type).getD 1 ≤ 5 / 4 := by
    rw [div_le_iff₀ hcx0]
    nlinarith [hcx.1]
  have hform : r.calculate_priority now =
      0.40 * ((r.urgency : ℚ) / 10) +
      0.25 * (((REQUESTER_PRIORITY.lookup r.requester_type).getD 3) / 10) +
      0.20 * min ((now - r.submission_time) / 120) 1 +
      0.15 * (1 / (DOCUMENT_COMPLEXITY.lookup r.document_type).getD 1) := by
    simp only [DocumentRequest.calculate_priority]
    rw [hw.1, hw.2.1, hw.2.2.1, hw.2.2.2]
    norm_num
  refine ⟨hform, ?_, ?_⟩
  · rw [hform]
    have h1 : (0 : ℚ) ≤ 0.40 * ((r.urgency : ℚ) / 10) := by positivity
    have h2 : (0 : ℚ) ≤ 0.25 *
        (((REQUESTER_PRIORITY.lookup r.requester_type).getD 3) / 10) := by
      nlinarith [hreq.1]
    have h3 : (0 : ℚ) ≤ 0.20 * min ((now - r.submission_time) / 120) 1 := by
      nlinarith
    have h4 : (0 : ℚ) ≤ 0.15 *
        (1 / (DOCUMENT_COMPLEXITY.lookup r.document_type).getD 1) := by nlinarith
    linarith
  · rw [hform]
    have h1 : 0.40 * ((r.urgency : ℚ) / 10) ≤ 2 / 5 := by nlinarith
    have h2 : 0.25 * (((REQUESTER_PRIORITY.lookup r.requester_type).getD 3) / 10)
        ≤ 1 / 4 := by nlinarith [hreq.2]
    have h3 : 0.20 * min ((now - r.submission_time) / 120) 1 ≤ 1 / 5 := by nlinarith
    have h4 : 0.15 * (1 / (DOCUMENT_COMPLEXITY.lookup r.document_type).getD 1)
        ≤ 3 / 16 := by nlinarith
    linarith

unseal Rat.ofScientific Rat.mul Rat.inv Rat.add Rat.sub in
/-- Witness for the amended C1 theorem at the concrete request above and
now = 120. -/
theorem C1_priority_weighted_sum_bounds_witness :
    (high_priority_request.submission_time ≤ 120 ∧ 0 ≤ high_priority_request.urgency ∧
      high_priority_request.urgency ≤ 10) ∧
    (high_priority_request.calculate_priority 120 =
      0.40 * ((high_priority_request.urgency : ℚ) / 10) +
      0.25 * (((REQUESTER_PRIORITY.lookup high_priority_request.requester_type).getD 3) / 10) +
      0.20 * min ((120 - high_priority_request.submission_time) / 120) 1 +
      0.15 * (1 / (DOCUMENT_COMPLEXITY.lookup high_priority_request.document_type).getD 1) ∧
    0 ≤ high_priority_request.calculate_priority 120 ∧
    high_priority_request.calculate_priority 120 ≤ 83 / 80) :=
  ⟨⟨by decide, by decide, by decide⟩,
   C1_priority_weighted_sum_bounds high_priority_request 120 (by decide) (by decide)
     (by decide)⟩

/-- Claim C4: the pooled and the quota-free allocators are the same selection
function — on every roster state, request, and candidate time they return the
same member index (or both return none). -/
theorem C4_pooled_eq_quota_free :
    ∀ (pool : List StaffMember) (req : DocumentRequest) (t : ℚ),
      PooledAllocator.assign pool req t = QuotaFreeAllocator.assign pool req t :=
  fun _ _ _ => rfl

/-- Claim C5: with the pooled allocator, an in-horizon request is dropped by the
processing loop only when the candidate set (all available staff) is empty; when
the allocator returns a member — even one whose next-available time is after the
request's submission — the request is completed, with assignment time
max(submission time, member's next-available time). -/
theorem C5_drop_only_when_no_candidates (pool : List StaffMember)
    (req : DocumentRequest) (end_time : ℚ) (rng : RandomSource) (n : ℕ)
    (hin : req.submission_time ≤ end_time)
    (hdoc : (DOCUMENT_COMPLEXITY.lookup req.document_type).isSome) :
    (PooledAllocator.assign pool req req.submission_time = none →
      availableIdx pool = [] ∧
      process_request .pooled end_time rng pool req n = .ok (pool, none, n)) ∧
    (∀ i : ℕ, PooledAllocator.assign pool req req.submission_time = some i →
      ∃ s, pool[i]? = some s ∧
        ∃ pool1 req1 n1,
          process_request .pooled end_time rng pool req n = .ok (pool1, some req1, n1) ∧
          req1.assignment_time =
            some (max req.submission_time s.next_available_time)) := by
  have hle : ¬ end_time < req.submission_time := not_lt.mpr hin
  constructor
  · intro hnone
    have hempty : availableIdx pool = [] := (pyMinBy_eq_none _ _).mp hnone
    refine ⟨hempty, ?_⟩
    refine process_request_unassigned .pooled end_time rng pool req n n hle ?_
    simp [AllocatorKind.assign, hnone]
  · intro i hsome
    have h' : AllocatorKind.pooled.assign pool req req.submission_time rng n =
        (some i, n) := by
      simp [AllocatorKind.assign, hsome]
    obtain ⟨s, hs, _⟩ :=
      assign_some_available .pooled pool req req.submission_time rng n i n h'
    rcases hdc : DOCUMENT_COMPLEXITY.lookup req.document_type with _ | c
    · rw [hdc] at hdoc
      simp at hdoc
    · exact ⟨s, hs, _, _, _,
        process_request_assigned .pooled end_time rng pool req n n i s c hle h' hs hdc,
        rfl⟩

/-- Witness for C5 at a one-member roster that is available but busy until
time 5 and a request submitted at time 0: the request is assigned (not
dropped) with assignment time max(0, 5). -/
theorem C5_drop_only_when_no_candidates_witness :
    (tiny_request.submission_time ≤ 60 ∧
      (DOCUMENT_COMPLEXITY.lookup tiny_request.document_type).isSome) ∧
    ((PooledAllocator.assign tiny_pool tiny_request tiny_request.submission_time = none →
      availableIdx tiny_pool = [] ∧
      process_request .pooled 60 rng0 tiny_pool tiny_request 0 =
        .ok (tiny_pool, none, 0)) ∧
    (∀ i : ℕ,
      PooledAllocator.assign tiny_pool tiny_request tiny_request.submission_time = some i →
      ∃ s, tiny_pool[i]? = some s ∧
        ∃ pool1 req1 n1,
          process_request .pooled 60 rng0 tiny_pool tiny_request 0 =
            .ok (pool1, some req1, n1) ∧
          req1.assignment_time =
            some (max tiny_request.submission_time s.next_available_time))) :=
  ⟨⟨by decide, by decide⟩,
   C5_drop_only_when_no_candidates tiny_pool tiny_request 60 rng0 0 (by decide) (by decide)⟩

/-- Claim C6: the workload-based allocator never selects an unavailable member,
and the `assign_request` update performed on a successful assignment raises the
selected member's cumulative count by exactly one while leaving every other
roster slot unchanged. -/
theorem C6_workload_available_and_count (pool : List StaffMember)
    (req : DocumentRequest) (t a p : ℚ) (i : ℕ)
    (h : WorkloadBasedAllocator.assign pool req t = some i) :
    ∃ s, pool[i]? = some s ∧ s.is_available = true ∧
      (pool.set i (s.assign_request a p))[i]? = some (s.assign_request a p) ∧
      (s.assign_request a p).total_assigned = s.total_assigned + 1 ∧
      ∀ j : ℕ, j ≠ i → (pool.set i (s.assign_request a p))[j]? = pool[j]? := by
  have h' : AllocatorKind.workload_based.assign pool req t rng0 0 = (some i, 0) := by
    simp [AllocatorKind.assign, h]
  obtain ⟨s, hs, hav⟩ := assign_some_available .workload_based pool req t rng0 0 i 0 h'
  have hlt : i < pool.length := (List.getElem?_eq_some.mp hs).1
  exact ⟨s, hs, hav, List.getElem?_set_self hlt, rfl,
    fun j hj => List.getElem?_set_ne (Ne.symm hj)⟩

/-- Witness for C6 at the one-member roster: the allocator picks index 0 and the
update bumps that member's count from 0 to 1. -/
theorem C6_workload_available_and_count_witness :
    WorkloadBasedAllocator.assign tiny_pool tiny_request 0 = some 0 ∧
    (∃ s, tiny_pool[0]? = some s ∧ s.is_available = true ∧
      (tiny_pool.set 0 (s.assign_request 3 4))[0]? = some (s.assign_request 3 4) ∧
      (s.assign_request 3 4).total_assigned = s.total_assigned + 1 ∧
      ∀ j : ℕ, j ≠ 0 → (tiny_pool.set 0 (s.assign_request 3 4))[j]? = tiny_pool[j]?) :=
  ⟨by decide, C6_workload_available_and_count tiny_pool tiny_request 0 3 4 0 (by decide)⟩

/-- Claim C8: scoring is idempotent — re-invoking `calculate_priority` with the
same `now` returns the same score and leaves the request unchanged — and for a
strictly later `now` (all other fields equal) the score strictly increases while
the later wait is at most the 120-minute cap, and is unchanged once the earlier
wait has already reached the cap. -/
theorem C8_priority_idempotent_monotone (r : DocumentRequest) (t t' : ℚ)
    (h : t < t') :
    (r.calculate_priority_update t).calculate_priority_update t =
      r.calculate_priority_update t ∧
    (r.calculate_priority_update t).calculate_priority t = r.calculate_priority t ∧
    (t' - r.submission_time ≤ 120 →
      r.calculate_priority t < r.calculate_priority t') ∧
    (120 ≤ t - r.submission_time →
      r.calculate_priority t = r.calculate_priority t') := by
  refine ⟨rfl, rfl, ?_, ?_⟩
  · intro hcap
    have h1 : (t - r.submission_time) / 120 ≤ 1 := by
      rw [div_le_one (by norm_num : (0:ℚ) < 120)]
      linarith
    have h2 : (t' - r.submission_time) / 120 ≤ 1 := by
      rw [div_le_one (by norm_num : (0:ℚ) < 120)]
      linarith
    have hlt : (t - r.submission_time) / 120 < (t' - r.submission_time) / 120 := by
      rw [div_lt_div_iff (by norm_num) (by norm_num)]
      nlinarith
    simp only [DocumentRequest.calculate_priority]
    rw [min_eq_left h1, min_eq_left h2]
    have hw := weights_values
    rw [hw.2.2.1]
    linarith
  · intro hcap
    have h1 : (1:ℚ) ≤ (t - r.submission_time) / 120 := by
      rw [le_div_iff (by norm_num : (0:ℚ) < 120)]
      linarith
    have h2 : (1:ℚ) ≤ (t' - r.submission_time) / 120 := by
      rw [le_div_iff (by norm_num : (0:ℚ) < 120)]
      linarith
    simp only [DocumentRequest.calculate_priority]
    rw [min_eq_right h1, min_eq_right h2]

unseal Rat.ofScientific Rat.mul Rat.inv Rat.add Rat.sub in
/-- Witness for C8 at the seeded request (submitted at 0), t = 30, t' = 60. -/
theorem C8_priority_idempotent_monotone_witness :
    (30 : ℚ) < 60 ∧
    ((seeded_request.calculate_priority_update 30).calculate_priority_update 30 =
      seeded_request.calculate_priority_update 30 ∧
    (seeded_request.calculate_priority_update 30).calculate_priority 30 =
      seeded_request.calculate_priority 30 ∧
    (60 - seeded_request.submission_time ≤ 120 →
      seeded_request.calculate_priority 30 < seeded_request.calculate_priority 60) ∧
    (120 ≤ 30 - seeded_request.submission_time →
      seeded_request.calculate_priority 30 = seeded_request.calculate_priority 60)) :=
  ⟨by decide, C8_priority_idempotent_monotone seeded_request 30 60 (by decide)⟩

/-- Helper: a run with an unrecognized scheduler kind raises after the
generation step, so the returned state carries exactly the generator's
mutations. -/
theorem run_unknown_scheduler (e : SimulationEngine) (scenario : String)
    (d : ℕ) (rng : RandomSource)
    (h1 : e.scheduler_type ≠ "FCFS") (h2 : e.scheduler_type ≠ "WEIGHTED") :
    e.run scenario d rng =
      ({ e with
          scenario := scenario
          staff_pool := if scenario = "staff_absence" then mark_unavailable e.staff_pool 2
                        else e.staff_pool },
       .error ("Unknown scheduler type: " ++ e.scheduler_type)) := by
  unfold SimulationEngine.run SimulationEngine._generate_requests
  simp [h1, h2]

/-- Claim C2 counterexample: an engine constructed with scheduler kind "bogus"
and run on the staff-absence scenario does raise an error naming the offending
value ("BOGUS"), but the observable state is not unchanged — the third roster
member's availability flag flips from true to false before the error is
raised (and the scenario label is updated as well). -/
theorem C2_partial_run_on_error :
    (bogus_engine.run "staff_absence" 60 rng0).2 =
      .error "Unknown scheduler type: BOGUS" ∧
    bogus_engine.scenario = "baseline" ∧
    (bogus_engine.run "staff_absence" 60 rng0).1.scenario = "staff_absence" ∧
    bogus_engine.staff_pool.map StaffMember.is_available =
      [true, true, true, true, true, true] ∧
    (bogus_engine.run "staff_absence" 60 rng0).1.staff_pool.map StaffMember.is_available =
      [true, true, false, true, true, true] := by
  refine ⟨by decide, by decide, by decide, by decide, by decide⟩

/-- Claim C2 (amended): running an engine whose scheduler kind is outside the
recognized set raises an error naming the offending value, and no request is
processed — the completed list, assignment counts and next-available times are
untouched — but the run is not state-free: the scenario label is set to the
argument, and under the staff-absence scenario the third roster member's
availability flag is set to false before the scheduler kind is checked. -/
theorem C2_unknown_scheduler_error (e : SimulationEngine) (scenario : String)
    (d : ℕ) (rng : RandomSource)
    (h1 : e.scheduler_type ≠ "FCFS") (h2 : e.scheduler_type ≠ "WEIGHTED") :
    e.run scenario d rng =
      ({ e with
          scenario := scenario
          staff_pool := if scenario = "staff_absence" then mark_unavailable e.staff_pool 2
                        else e.staff_pool },
       .error ("Unknown scheduler type: " ++ e.scheduler_type)) :=
  run_unknown_scheduler e scenario d rng h1 h2

/-- Witness for the amended C2 theorem at the concrete "bogus" engine. -/
theorem C2_unknown_scheduler_error_witness :
    (bogus_engine.scheduler_type ≠ "FCFS" ∧ bogus_engine.scheduler_type ≠ "WEIGHTED") ∧
    bogus_engine.run "staff_absence" 60 rng0 =
      ({ bogus_engine with
          scenario := "staff_absence"
          staff_pool := if "staff_absence" = "staff_absence" then
              mark_unavailable bogus_engine.staff_pool 2
            else bogus_engine.staff_pool },
       .error ("Unknown scheduler type: " ++ bogus_engine.scheduler_type)) :=
  ⟨⟨by decide, by decide⟩,
   C2_unknown_scheduler_error bogus_engine "staff_absence" 60 rng0 (by decide) (by decide)⟩

/-! Properties of the synthetic workload generator. -/

theorem doc_types_lookup_isSome : ∀ d ∈ doc_types, (DOCUMENT_COMPLEXITY.lookup d).isSome := by
  decide

theorem colleges_for_mem_COLLEGES : ∀ scen : String, ∀ c ∈ colleges_for scen, c ∈ COLLEGES := by
  intro scen c hc
  unfold colleges_for at hc
  split at hc
  · simp only [List.mem_append] at hc
    rcases hc with hc | hc
    · have : c = "COE" := by
        simp only [List.mem_cons, List.not_mem_nil, or_false] at hc
        tauto
      rw [this]
      decide
    · exact hc
  · exact hc

theorem colleges_for_ne_nil (scen : String) : colleges_for scen ≠ [] := by
  unfold colleges_for
  split <;> decide

theorem urgency_range_ne_nil (scen : String) : urgency_range_for scen ≠ [] := by
  unfold urgency_range_for
  split <;> decide

theorem generated_doc_isSome (t0 : ℚ) (scen : String) (d : ℕ) (rng : RandomSource)
    (n i : ℕ) :
    (DOCUMENT_COMPLEXITY.lookup (mk_request t0 scen d rng n i).document_type).isSome := by
  have hmem : (mk_request t0 scen d rng n i).document_type ∈ doc_types :=
    pyChoiceD_mem _ _ _ (by decide)
  exact doc_types_lookup_isSome _ hmem

theorem generated_college_mem (t0 : ℚ) (scen : String) (d : ℕ) (rng : RandomSource)
    (n i : ℕ) :
    (mk_request t0 scen d rng n i).college ∈ colleges_for scen :=
  pyChoiceD_mem _ _ _ (colleges_for_ne_nil scen)

theorem total_requests_pos (scen : String) : 0 < total_requests_for scen := by
  unfold total_requests_for
  repeat' split
  all_goals norm_num

theorem generated_submission_le (t0 : ℚ) (scen : String) (d : ℕ) (rng : RandomSource)
    (n i : ℕ) (hi : i < total_requests_for scen) :
    (mk_request t0 scen d rng n i).submission_time ≤ t0 + (d : ℚ) := by
  show t0 + (i : ℚ) * ((d : ℚ) / (total_requests_for scen : ℚ)) ≤ t0 + (d : ℚ)
  have htpos : (0 : ℚ) < (total_requests_for scen : ℚ) := by
    exact_mod_cast total_requests_pos scen
  have hiq : (i : ℚ) ≤ (total_requests_for scen : ℚ) := by
    exact_mod_cast le_of_lt hi
  have hd0 : (0 : ℚ) ≤ (d : ℚ) := by positivity
  have hdiv : (0 : ℚ) ≤ (d : ℚ) / (total_requests_for scen : ℚ) := by positivity
  have h1 : (i : ℚ) * ((d : ℚ) / (total_requests_for scen : ℚ)) ≤
      (total_requests_for scen : ℚ) * ((d : ℚ) / (total_requests_for scen : ℚ)) :=
    mul_le_mul_of_nonneg_right hiq hdiv
  have h2 : (total_requests_for scen : ℚ) * ((d : ℚ) / (total_requests_for scen : ℚ)) =
      (d : ℚ) := mul_div_cancel₀ _ (ne_of_gt htpos)
  linarith

/-- Master run-level specification for a recognized scheduler kind: the run
returns a metrics report computed from a post-state whose completed list extends
the engine's cumulative one, whose roster slots keep their identity,
affiliation, and availability from the post-generation roster, whose total
assignment count grows by exactly the number of newly completed requests, and
all newly completed requests carry coherent timestamps. -/
theorem run_valid_spec (e : SimulationEngine) (scen : String) (d : ℕ)
    (rng : RandomSource)
    (hsched : e.scheduler_type = "FCFS" ∨ e.scheduler_type = "WEIGHTED") :
    ∃ (pool2 : List StaffMember) (new : List DocumentRequest),
      e.run scen d rng =
        ({ scheduler_type := e.scheduler_type, allocator := e.allocator,
           staff_pool := pool2, completed := e.completed ++ new,
           start_time := e.start_time, scenario := scen },
         SimulationEngine._calculate_metrics
           { scheduler_type := e.scheduler_type, allocator := e.allocator,
             staff_pool := pool2, completed := e.completed ++ new,
             start_time := e.start_time, scenario := scen } d) ∧
      (∀ j : ℕ, (pool2[j]?).map poolShape = ((genPool e scen)[j]?).map poolShape) ∧
      sumTotals pool2 = sumTotals (genPool e scen) + new.length ∧
      (∀ (j : ℕ) (st : StaffMember), (genPool e scen)[j]? = some st →
        ∃ st2, pool2[j]? = some st2 ∧ st.total_assigned ≤ st2.total_assigned) ∧
      (∀ r ∈ new, ∃ a c sid, r.assignment_time = some a ∧ r.completion_time = some c ∧
        r.assigned_staff = some sid ∧ r.submission_time ≤ a ∧ a ≤ c) ∧
      (e.allocator = .college_based →
        (∀ r : DocumentRequest, r.college ∈ colleges_for scen →
          coveredBy (genPool e scen) r) →
        new.length = total_requests_for scen) := by
  have hdocs : ∀ r ∈ (List.range (total_requests_for scen)).map
      (mk_request e.start_time scen d rng 0),
      (DOCUMENT_COMPLEXITY.lookup r.document_type).isSome := by
    intro r hr
    rcases List.mem_map.mp hr with ⟨i, _, rfl⟩
    exact generated_doc_isSome e.start_time scen d rng 0 i
  rcases hsched with hFC | hWE
  · have hdocsort : ∀ r ∈ pySorted
        (fun a b => decide (a.submission_time ≤ b.submission_time))
        ((List.range (total_requests_for scen)).map (mk_request e.start_time scen d rng 0)),
        (DOCUMENT_COMPLEXITY.lookup r.document_type).isSome := by
      intro r hr
      exact hdocs r ((pySorted_mem _ _ _).mp hr)
    obtain ⟨pool2, new, n2, heq, hshape, hsum, hmono, hgood, hcb⟩ :=
      process_requests_spec e.allocator (e.start_time + (d : ℚ)) rng
        (pySorted (fun a b => decide (a.submission_time ≤ b.submission_time))
          ((List.range (total_requests_for scen)).map (mk_request e.start_time scen d rng 0)))
        (genPool e scen) e.completed (0 + 4 * total_requests_for scen) hdocsort
    refine ⟨pool2, new, ?_, hshape, hsum, hmono, hgood, ?_⟩
    · unfold SimulationEngine.run SimulationEngine._generate_requests
      simp only [hFC, genPool] at heq ⊢
      simp only [eq_false (by decide : ¬ ("FCFS" : String) = "WEIGHTED"),
        eq_true (rfl : ("FCFS" : String) = "FCFS"), if_false, if_true]
      rw [heq]
    · intro halloc hcover
      have hall : ∀ r ∈ pySorted
          (fun a b => decide (a.submission_time ≤ b.submission_time))
          ((List.range (total_requests_for scen)).map (mk_request e.start_time scen d rng 0)),
          r.submission_time ≤ e.start_time + (d : ℚ) ∧ coveredBy (genPool e scen) r := by
        intro r hr
        have hr2 := (pySorted_mem _ _ _).mp hr
        rcases List.mem_map.mp hr2 with ⟨i, hi, rfl⟩
        have hi2 := List.mem_range.mp hi
        exact ⟨generated_submission_le e.start_time scen d rng 0 i hi2,
          hcover _ (generated_college_mem e.start_time scen d rng 0 i)⟩
      have hlen := hcb halloc hall
      rw [hlen, pySorted_length, List.length_map, List.length_range]
  · have hdocmap : ∀ r ∈ ((List.range (total_requests_for scen)).map
        (mk_request e.start_time scen d rng 0)).map
        (fun r => r.calculate_priority_update e.start_time),
        (DOCUMENT_COMPLEXITY.lookup r.document_type).isSome := by
      intro r hr
      rcases List.mem_map.mp hr with ⟨r0, hr0, rfl⟩
      exact hdocs r0 hr0
    have hdocsort : ∀ r ∈ pySorted
        (fun a b => decide (b.priority_score ≤ a.priority_score))
        (((List.range (total_requests_for scen)).map (mk_request e.start_time scen d rng 0)).map
          (fun r => r.calculate_priority_update e.start_time)),
        (DOCUMENT_COMPLEXITY.lookup r.document_type).isSome := by
      intro r hr
      exact hdocmap r ((pySorted_mem _ _ _).mp hr)
    obtain ⟨pool2, new, n2, heq, hshape, hsum, hmono, hgood, hcb⟩ :=
      process_requests_spec e.allocator (e.start_time + (d : ℚ)) rng
        (pySorted (fun a b => decide (b.priority_score ≤ a.priority_score))
          (((List.range (total_requests_for scen)).map (mk_request e.start_time scen d rng 0)).map
            (fun r => r.calculate_priority_update e.start_time)))
        (genPool e scen) e.completed (0 + 4 * total_requests_for scen) hdocsort
    refine ⟨pool2, new, ?_, hshape, hsum, hmono, hgood, ?_⟩
    · unfold SimulationEngine.run SimulationEngine._generate_requests
      simp only [hWE, genPool] at heq ⊢
      simp only [eq_false (by decide : ¬ ("WEIGHTED" : String) = "FCFS"),
        eq_true (rfl : ("WEIGHTED" : String) = "WEIGHTED"), if_false, if_true]
      rw [heq]
    · intro halloc hcover
      have hall : ∀ r ∈ pySorted
          (fun a b => decide (b.priority_score ≤ a.priority_score))
          (((List.range (total_requests_for scen)).map (mk_request e.start_time scen d rng 0)).map
            (fun r => r.calculate_priority_update e.start_time)),
          r.submission_time ≤ e.start_time + (d : ℚ) ∧ coveredBy (genPool e scen) r := by
        intro r hr
        have hr2 := (pySorted_mem _ _ _).mp hr
        rcases List.mem_map.mp hr2 with ⟨r0, hr0, rfl⟩
        rcases List.mem_map.mp hr0 with ⟨i, hi, rfl⟩
        have hi2 := List.mem_range.mp hi
        exact ⟨generated_submission_le e.start_time scen d rng 0 i hi2,
          hcover _ (generated_college_mem e.start_time scen d rng 0 i)⟩
      have hlen := hcb halloc hall
      rw [hlen, pySorted_length, List.length_map, List.length_map, List.length_range]

/-! Helpers about the generation-step roster perturbation and the metrics. -/

theorem mark_unavailable_getElem (pool : List StaffMember) (i j : ℕ) :
    (mark_unavailable pool i)[j]? =
      if i = j then (pool[j]?).map (fun s => { s with is_available := false })
      else pool[j]? := by
  unfold mark_unavailable
  rcases hp : pool[i]? with _ | s
  · by_cases hij : i = j
    · subst hij
      simp [hp]
    · simp [hij]
  · by_cases hij : i = j
    · subst hij
      have hlt : i < pool.length := (List.getElem?_eq_some.mp hp).1
      rw [List.getElem?_set_self hlt, hp]
      simp
    · rw [List.getElem?_set_ne hij]
      simp [hij]

theorem genPool_total_pointwise (e : SimulationEngine) (scen : String) (j : ℕ)
    (st : StaffMember) (hst : e.staff_pool[j]? = some st) :
    ∃ st1, (genPool e scen)[j]? = some st1 ∧
      st1.total_assigned = st.total_assigned ∧
      (st1.is_available = st.is_available ∨ st1.is_available = false) := by
  unfold genPool
  by_cases habs : scen = "staff_absence"
  · rw [if_pos habs, mark_unavailable_getElem]
    by_cases hij : 2 = j
    · rw [if_pos hij, hst]
      exact ⟨_, rfl, rfl, Or.inr rfl⟩
    · rw [if_neg hij, hst]
      exact ⟨st, rfl, rfl, Or.inl rfl⟩
  · rw [if_neg habs, hst]
    exact ⟨st, rfl, rfl, Or.inl rfl⟩

theorem metrics_fields (e : SimulationEngine) (d : ℕ) (hd : d ≠ 0) :
    ∃ rep : Report, e._calculate_metrics d = .ok rep ∧
      rep.total_processed = e.completed.length ∧
      rep.staff_load = e.staff_pool.map (fun st => (st.staff_id, st.total_assigned)) ∧
      rep.scenario = e.scenario := by
  have hdq : ((d : ℚ) / 60) ≠ 0 := by
    have hd0 : ((d : ℚ)) ≠ 0 := Nat.cast_ne_zero.mpr hd
    simp [div_eq_zero_iff, hd0]
  unfold SimulationEngine._calculate_metrics
  cases hemp : e.completed.isEmpty
  · simp only [hemp, Bool.false_eq_true, if_false, hdq]
    exact ⟨_, rfl, rfl, rfl, rfl⟩
  · have hnil : e.completed = [] := List.isEmpty_iff.mp hemp
    simp only [hemp, if_true]
    exact ⟨_, rfl, by simp [hnil], rfl, rfl⟩

/-- Claim C3: every request in an engine's completed set after a run either was
already there before the call, or has its three assignment fields all set, with
submission time ≤ assignment time ≤ completion time. -/
theorem C3_completed_requests_coherent (e : SimulationEngine) (scen : String)
    (d : ℕ) (rng : RandomSource) (req : DocumentRequest)
    (h : req ∈ (e.run scen d rng).1.completed) :
    req ∈ e.completed ∨
    ∃ a c sid, req.assignment_time = some a ∧ req.completion_time = some c ∧
      req.assigned_staff = some sid ∧ req.submission_time ≤ a ∧ a ≤ c := by
  by_cases hsched : e.scheduler_type = "FCFS" ∨ e.scheduler_type = "WEIGHTED"
  · obtain ⟨pool2, new, hrun, _, _, _, hgood, _⟩ := run_valid_spec e scen d rng hsched
    rw [hrun] at h
    rcases List.mem_append.mp h with h1 | h2
    · exact Or.inl h1
    · exact Or.inr (hgood req h2)
  · push_neg at hsched
    rw [run_unknown_scheduler e scen d rng hsched.1 hsched.2] at h
    exact Or.inl h

unseal Rat.ofScientific Rat.mul Rat.inv Rat.add Rat.sub in
set_option maxRecDepth 100000 in
/-- Witness for C3: a seeded request in the engine's cumulative completed list
is still in the completed list after a full baseline run. -/
theorem C3_completed_requests_coherent_witness :
    seeded_request ∈ (seeded_engine.run "baseline" 60 rng0).1.completed ∧
    (seeded_request ∈ seeded_engine.completed ∨
    ∃ a c sid, seeded_request.assignment_time = some a ∧
      seeded_request.completion_time = some c ∧
      seeded_request.assigned_staff = some sid ∧
      seeded_request.submission_time ≤ a ∧ a ≤ c) :=
  ⟨by decide,
   C3_completed_requests_coherent seeded_engine "baseline" 60 rng0 seeded_request
     (by decide)⟩

/-- Claim C10: a staff-absence run sets the third roster member's availability
flag to false, and once any member's flag is false, no later run (any scenario)
ever sets it back to true — the absence is permanent for the engine instance. -/
theorem C10_absence_is_sticky :
    (∀ (e : SimulationEngine) (d : ℕ) (rng : RandomSource) (st : StaffMember),
      e.staff_pool[2]? = some st →
      ∃ st2, (e.run "staff_absence" d rng).1.staff_pool[2]? = some st2 ∧
        st2.is_available = false) ∧
    (∀ (e : SimulationEngine) (scen : String) (d : ℕ) (rng : RandomSource)
      (i : ℕ) (st : StaffMember),
      e.staff_pool[i]? = some st → st.is_available = false →
      ∃ st2, (e.run scen d rng).1.staff_pool[i]? = some st2 ∧
        st2.is_available = false) := by
  have hgen2 : ∀ (e : SimulationEngine) (st : StaffMember),
      e.staff_pool[2]? = some st →
      ∃ st1, (genPool e "staff_absence")[2]? = some st1 ∧ st1.is_available = false := by
    intro e st hst
    unfold genPool
    rw [if_pos rfl, mark_unavailable_getElem, if_pos rfl, hst]
    exact ⟨_, rfl, rfl⟩
  have hshape_avail : ∀ (pool2 gp : List StaffMember) (j : ℕ) (st1 : StaffMember),
      (∀ k : ℕ, (pool2[k]?).map poolShape = (gp[k]?).map poolShape) →
      gp[j]? = some st1 →
      ∃ st2, pool2[j]? = some st2 ∧ st2.is_available = st1.is_available := by
    intro pool2 gp j st1 hshape hst1
    have := hshape j
    rw [hst1] at this
    rcases hmem : pool2[j]? with _ | st2
    · rw [hmem] at this
      simp at this
    · rw [hmem] at this
      simp only [Option.map_some'] at this
      have h2 : poolShape st2 = poolShape st1 := Option.some_inj.mp this
      exact ⟨st2, rfl, congrArg (fun t => t.2.2) h2⟩
  constructor
  · intro e d rng st hst
    by_cases hsched : e.scheduler_type = "FCFS" ∨ e.scheduler_type = "WEIGHTED"
    · obtain ⟨pool2, new, hrun, hshape, _, _, _, _⟩ :=
        run_valid_spec e "staff_absence" d rng hsched
      rw [hrun]
      obtain ⟨st1, hst1, hf⟩ := hgen2 e st hst
      obtain ⟨st2, hst2, hav⟩ := hshape_avail pool2 _ 2 st1 hshape hst1
      exact ⟨st2, hst2, by rw [hav, hf]⟩
    · push_neg at hsched
      rw [run_unknown_scheduler e "staff_absence" d rng hsched.1 hsched.2]
      obtain ⟨st1, hst1, hf⟩ := hgen2 e st hst
      exact ⟨st1, hst1, hf⟩
  · intro e scen d rng i st hst hf
    have hgenf : ∃ st1, (genPool e scen)[i]? = some st1 ∧ st1.is_available = false := by
      obtain ⟨st1, hst1, _, havail⟩ := genPool_total_pointwise e scen i st hst
      rcases havail with h1 | h1
      · exact ⟨st1, hst1, by rw [h1, hf]⟩
      · exact ⟨st1, hst1, h1⟩
    by_cases hsched : e.scheduler_type = "FCFS" ∨ e.scheduler_type = "WEIGHTED"
    · obtain ⟨pool2, new, hrun, hshape, _, _, _, _⟩ := run_valid_spec e scen d rng hsched
      rw [hrun]
      obtain ⟨st1, hst1, hf1⟩ := hgenf
      obtain ⟨st2, hst2, hav⟩ := hshape_avail pool2 _ i st1 hshape hst1
      exact ⟨st2, hst2, by rw [hav, hf1]⟩
    · push_neg at hsched
      rw [run_unknown_scheduler e scen d rng hsched.1 hsched.2]
      obtain ⟨st1, hst1, hf1⟩ := hgenf
      exact ⟨st1, hst1, hf1⟩

/-- Witness for C10: the staff-absence run on a fresh engine leaves STAFF003
unavailable, and a subsequent baseline run on an engine whose third member is
already absent observes it still unavailable. -/
theorem C10_absence_is_sticky_witness :
    (fresh_fcfs_engine.staff_pool[2]? = some ⟨"STAFF003", "Ana Reyes", "CBA", 0, 0, true⟩ ∧
      ∃ st2, (fresh_fcfs_engine.run "staff_absence" 60 rng0).1.staff_pool[2]? = some st2 ∧
        st2.is_available = false) ∧
    (absent_engine.staff_pool[2]? = some ⟨"STAFF003", "Ana Reyes", "CBA", 0, 0, false⟩ ∧
      ∃ st2, (absent_engine.run "baseline" 60 rng0).1.staff_pool[2]? = some st2 ∧
        st2.is_available = false) :=
  ⟨⟨by decide, C10_absence_is_sticky.1 fresh_fcfs_engine 60 rng0
      ⟨"STAFF003", "Ana Reyes", "CBA", 0, 0, true⟩ (by decide)⟩,
   ⟨by decide, C10_absence_is_sticky.2 absent_engine "baseline" 60 rng0 2
      ⟨"STAFF003", "Ana Reyes", "CBA", 0, 0, false⟩ (by decide) (by decide)⟩⟩

/-- Claim C9: state accumulates across calls to `run` on one engine instance —
both runs succeed (given a recognized scheduler kind), each run's completed list
extends the previous one, each report's `total_processed` counts the whole
cumulative completed list (not just the current run's completions), `staff_load`
reads the cumulative per-member counts, and no member's count ever decreases
from the first run's end to the second run's end. -/
theorem C9_metrics_cumulative (e : SimulationEngine) (s1 s2 : String) (d1 d2 : ℕ)
    (rng1 rng2 : RandomSource)
    (hsched : e.scheduler_type = "FCFS" ∨ e.scheduler_type = "WEIGHTED")
    (hd1 : d1 ≠ 0) (hd2 : d2 ≠ 0) :
    ∃ rep1 rep2 : Report,
      (e.run s1 d1 rng1).2 = .ok rep1 ∧
      ((e.run s1 d1 rng1).1.run s2 d2 rng2).2 = .ok rep2 ∧
      (∃ l1, (e.run s1 d1 rng1).1.completed = e.completed ++ l1) ∧
      (∃ l2, ((e.run s1 d1 rng1).1.run s2 d2 rng2).1.completed =
        (e.run s1 d1 rng1).1.completed ++ l2) ∧
      rep1.total_processed = (e.run s1 d1 rng1).1.completed.length ∧
      rep2.total_processed = ((e.run s1 d1 rng1).1.run s2 d2 rng2).1.completed.length ∧
      rep1.total_processed ≤ rep2.total_processed ∧
      rep2.staff_load = ((e.run s1 d1 rng1).1.run s2 d2 rng2).1.staff_pool.map
        (fun st => (st.staff_id, st.total_assigned)) ∧
      (∀ (j : ℕ) (st : StaffMember), (e.run s1 d1 rng1).1.staff_pool[j]? = some st →
        ∃ st2, ((e.run s1 d1 rng1).1.run s2 d2 rng2).1.staff_pool[j]? = some st2 ∧
          st.total_assigned ≤ st2.total_assigned) := by
  obtain ⟨pool2, new1, hrun1, _, _, _, _, _⟩ := run_valid_spec e s1 d1 rng1 hsched
  have he1sched : (e.run s1 d1 rng1).1.scheduler_type = "FCFS" ∨
      (e.run s1 d1 rng1).1.scheduler_type = "WEIGHTED" := by
    rw [hrun1]
    exact hsched
  obtain ⟨pool3, new2, hrun2, hshape2, _, hmono2, _, _⟩ :=
    run_valid_spec ((e.run s1 d1 rng1).1) s2 d2 rng2 he1sched
  obtain ⟨rep1, hok1, htot1, hsl1, _⟩ := metrics_fields ((e.run s1 d1 rng1).1) d1 hd1
  obtain ⟨rep2, hok2, htot2, hsl2, _⟩ :=
    metrics_fields (((e.run s1 d1 rng1).1.run s2 d2 rng2).1) d2 hd2
  refine ⟨rep1, rep2, ?_, ?_, ⟨new1, ?_⟩, ⟨new2, ?_⟩, htot1, htot2, ?_, hsl2, ?_⟩
  · rw [hrun1] at hok1 ⊢
    exact hok1
  · rw [hrun2] at hok2 ⊢
    exact hok2
  · rw [hrun1]
  · rw [hrun2]
  · rw [htot1, htot2, hrun2]
    simp only [List.length_append]
    exact Nat.le_add_right _ _
  · intro j st hst
    obtain ⟨st1, hst1, htotg, _⟩ :=
      genPool_total_pointwise ((e.run s1 d1 rng1).1) s2 j st hst
    obtain ⟨st2, hst2, hle2⟩ := hmono2 j st1 hst1
    refine ⟨st2, ?_, ?_⟩
    · rw [hrun2]
      exact hst2
    · omega

/-- Witness for C9: two consecutive baseline runs on a fresh engine. -/
theorem C9_metrics_cumulative_witness :
    ((fresh_fcfs_engine.scheduler_type = "FCFS" ∨
      fresh_fcfs_engine.scheduler_type = "WEIGHTED") ∧
      (60 : ℕ) ≠ 0 ∧ (60 : ℕ) ≠ 0) ∧
    (∃ rep1 rep2 : Report,
      (fresh_fcfs_engine.run "baseline" 60 rng0).2 = .ok rep1 ∧
      ((fresh_fcfs_engine.run "baseline" 60 rng0).1.run "baseline" 60 rng0).2 = .ok rep2 ∧
      (∃ l1, (fresh_fcfs_engine.run "baseline" 60 rng0).1.completed =
        fresh_fcfs_engine.completed ++ l1) ∧
      (∃ l2, ((fresh_fcfs_engine.run "baseline" 60 rng0).1.run "baseline" 60 rng0).1.completed =
        (fresh_fcfs_engine.run "baseline" 60 rng0).1.completed ++ l2) ∧
      rep1.total_processed = (fresh_fcfs_engine.run "baseline" 60 rng0).1.completed.length ∧
      rep2.total_processed =
        ((fresh_fcfs_engine.run "baseline" 60 rng0).1.run "baseline" 60 rng0).1.completed.length ∧
      rep1.total_processed ≤ rep2.total_processed ∧
      rep2.staff_load =
        ((fresh_fcfs_engine.run "baseline" 60 rng0).1.run "baseline" 60 rng0).1.staff_pool.map
          (fun st => (st.staff_id, st.total_assigned)) ∧
      (∀ (j : ℕ) (st : StaffMember),
        (fresh_fcfs_engine.run "baseline" 60 rng0).1.staff_pool[j]? = some st →
        ∃ st2,
          ((fresh_fcfs_engine.run "baseline" 60 rng0).1.run "baseline" 60 rng0).1.staff_pool[j]? =
            some st2 ∧ st.total_assigned ≤ st2.total_assigned)) :=
  ⟨⟨Or.inl (by decide), by decide, by decide⟩,
   C9_metrics_cumulative fresh_fcfs_engine "baseline" "baseline" 60 60 rng0 rng0
     (Or.inl (by decide)) (by decide) (by decide)⟩

/-- The fixed six-member roster covers every college in the college list. -/
theorem init_staff_covers (t0 : ℚ) (c : String) (hc : c ∈ COLLEGES) :
    ∃ (i : ℕ) (s : StaffMember), (SimulationEngine._init_staff t0)[i]? = some s ∧
      s.is_available = true ∧ s.college_affiliation = c := by
  fin_cases hc
  · exact ⟨0, _, rfl, rfl, rfl⟩
  · exact ⟨1, _, rfl, rfl, rfl⟩
  · exact ⟨2, _, rfl, rfl, rfl⟩
  · exact ⟨3, _, rfl, rfl, rfl⟩
  · exact ⟨4, _, rfl, rfl, rfl⟩
  · exact ⟨5, _, rfl, rfl, rfl⟩

/-- Claim C7: for every random source and construction time, a fresh engine with
the FCFS scheduler and the college-based allocator run on the baseline scenario
for 60 minutes returns a report with 0 < total_processed ≤ 80 whose staff_load
has exactly 6 entries summing to total_processed.  (In fact every one of the 80
generated requests is completed.) -/
theorem C7_baseline_throughput (t0 : ℚ) (rng : RandomSource) :
    ∃ rep : Report,
      ((SimulationEngine.init "FCFS" "college_based" t0).run "baseline" 60 rng).2 =
        .ok rep ∧
      0 < rep.total_processed ∧ rep.total_processed ≤ 80 ∧
      rep.staff_load.length = 6 ∧
      (rep.staff_load.map Prod.snd).sum = rep.total_processed := by
  have hsched : (SimulationEngine.init "FCFS" "college_based" t0).scheduler_type = "FCFS" ∨
      (SimulationEngine.init "FCFS" "college_based" t0).scheduler_type = "WEIGHTED" :=
    Or.inl (show pyUpper "FCFS" = "FCFS" by decide)
  obtain ⟨pool2, new, hrun, hshape, hsum, hmono, hgood, hcb⟩ :=
    run_valid_spec (SimulationEngine.init "FCFS" "college_based" t0) "baseline" 60 rng hsched
  have halloc : (SimulationEngine.init "FCFS" "college_based" t0).allocator =
      .college_based :=
    show SimulationEngine._create_allocator "college_based" = .college_based by decide
  have hgenpool : genPool (SimulationEngine.init "FCFS" "college_based" t0) "baseline" =
      SimulationEngine._init_staff t0 := by
    unfold genPool
    rw [if_neg (by decide : ¬ ("baseline" : String) = "staff_absence")]
    rfl
  have hcover : ∀ r : DocumentRequest, r.college ∈ colleges_for "baseline" →
      coveredBy (genPool (SimulationEngine.init "FCFS" "college_based" t0) "baseline") r := by
    intro r hc
    rw [hgenpool]
    exact init_staff_covers t0 r.college (colleges_for_mem_COLLEGES "baseline" _ hc)
  have hlen : new.length = 80 := by
    rw [hcb halloc hcover]
    decide
  have hcompl : (SimulationEngine.init "FCFS" "college_based" t0).completed = [] := rfl
  obtain ⟨rep, hok, htot, hsl, _⟩ := metrics_fields
    (((SimulationEngine.init "FCFS" "college_based" t0).run "baseline" 60 rng).1) 60
    (by norm_num)
  refine ⟨rep, ?_, ?_, ?_, ?_, ?_⟩
  · rw [hrun] at hok ⊢
    exact hok
  · rw [htot, hrun]
    simp only [hcompl, List.nil_append]
    omega
  · rw [htot, hrun]
    simp only [hcompl, List.nil_append]
    omega
  · rw [hsl, hrun]
    simp only [List.length_map]
    have h6 : (genPool (SimulationEngine.init "FCFS" "college_based" t0) "baseline").length
        = 6 := by
      rw [hgenpool]
      rfl
    rw [length_eq_of_shape _ pool2 hshape, h6]
  · rw [hsl, htot, hrun]
    simp only [List.map_map]
    have hcomp : (Prod.snd ∘ fun st : StaffMember => (st.staff_id, st.total_assigned)) =
        StaffMember.total_assigned := rfl
    rw [hcomp]
    have hsum2 : (pool2.map StaffMember.total_assigned).sum = sumTotals pool2 := rfl
    rw [hsum2, hsum, hgenpool]
    have h0 : sumTotals (SimulationEngine._init_staff t0) = 0 := rfl
    rw [h0]
    simp only [hcompl, List.nil_append]
    omega
